import Mathlib

/-!
Verification of the QNX glue-code layer (musl `qnxsupport`): the spawn
state machine, the open-mode flag translation table, and the structure
transcoders for stat, directory entries, time values and signal actions.
Each C routine is embedded as a Lean function over explicit data; machine
integers are `Nat`/`Int` with explicit `% 2^w` where the C code narrows.
-/

namespace QFcntl

/-- Foreign (QNX) open-mode flag values, from `qfcntl.c`. -/
def QNX_O_RDONLY : Nat := 0o000000

def QNX_O_WRONLY : Nat := 0o000001

def QNX_O_RDWR : Nat := 0o000002

def QNX_O_NONBLOCK : Nat := 0o000200

def QNX_O_APPEND : Nat := 0o000010

def QNX_O_DSYNC : Nat := 0o000020

def QNX_O_RSYNC : Nat := 0o000100

def QNX_O_SYNC : Nat := 0o000040

def QNX_O_CREAT : Nat := 0o000400

def QNX_O_TRUNC : Nat := 0o001000

def QNX_O_EXCL : Nat := 0o002000

def QNX_O_NOCTTY : Nat := 0o004000

/-- Host open-mode flag values: the standard Linux generic ABI values used
by the host C library headers (`O_RDONLY` etc.), which are outside the
`qnxsupport` sources. `O_SYNC` and `O_RSYNC` share the Linux value
`04010000`, which includes the `O_DSYNC` bit. -/
def O_RDONLY : Nat := 0

def O_WRONLY : Nat := 1

def O_RDWR : Nat := 2

def O_NONBLOCK : Nat := 0o4000

def O_APPEND : Nat := 0o2000

def O_DSYNC : Nat := 0o10000

def O_RSYNC : Nat := 0o4010000

def O_SYNC : Nat := 0o4010000

def O_CREAT : Nat := 0o100

def O_TRUNC : Nat := 0o1000

def O_EXCL : Nat := 0o200

def O_NOCTTY : Nat := 0o400

/-- `qnx_flag_to_linux` from `qfcntl.c`: the exact sequence of
`CONV_MODE` steps, in source order (including the duplicated
`RDONLY`/`WRONLY` lines). -/
def qnx_flag_to_linux (f : Nat) : Nat :=
  let ret : Nat := 0
  let ret := if f &&& QNX_O_RDONLY ≠ 0 then ret ||| O_RDONLY else ret
  let ret := if f &&& QNX_O_WRONLY ≠ 0 then ret ||| O_WRONLY else ret
  let ret := if f &&& QNX_O_RDONLY ≠ 0 then ret ||| O_RDONLY else ret
  let ret := if f &&& QNX_O_WRONLY ≠ 0 then ret ||| O_WRONLY else ret
  let ret := if f &&& QNX_O_RDWR ≠ 0 then ret ||| O_RDWR else ret
  let ret := if f &&& QNX_O_NONBLOCK ≠ 0 then ret ||| O_NONBLOCK else ret
  let ret := if f &&& QNX_O_APPEND ≠ 0 then ret ||| O_APPEND else ret
  let ret := if f &&& QNX_O_DSYNC ≠ 0 then ret ||| O_DSYNC else ret
  let ret := if f &&& QNX_O_RSYNC ≠ 0 then ret ||| O_RSYNC else ret
  let ret := if f &&& QNX_O_SYNC ≠ 0 then ret ||| O_SYNC else ret
  let ret := if f &&& QNX_O_CREAT ≠ 0 then ret ||| O_CREAT else ret
  let ret := if f &&& QNX_O_TRUNC ≠ 0 then ret ||| O_TRUNC else ret
  let ret := if f &&& QNX_O_EXCL ≠ 0 then ret ||| O_EXCL else ret
  let ret := if f &&& QNX_O_NOCTTY ≠ 0 then ret ||| O_NOCTTY else ret
  ret

/-- The (foreign-bit, host-bit) mapping table, in the order the source
tests it. -/
def convTable : List (Nat × Nat) :=
  [(QNX_O_RDONLY, O_RDONLY), (QNX_O_WRONLY, O_WRONLY),
   (QNX_O_RDONLY, O_RDONLY), (QNX_O_WRONLY, O_WRONLY),
   (QNX_O_RDWR, O_RDWR), (QNX_O_NONBLOCK, O_NONBLOCK),
   (QNX_O_APPEND, O_APPEND), (QNX_O_DSYNC, O_DSYNC),
   (QNX_O_RSYNC, O_RSYNC), (QNX_O_SYNC, O_SYNC),
   (QNX_O_CREAT, O_CREAT), (QNX_O_TRUNC, O_TRUNC),
   (QNX_O_EXCL, O_EXCL), (QNX_O_NOCTTY, O_NOCTTY)]

/-- Spec-side reading of the translation: fold the table, OR-ing in the
host flag of every entry whose foreign bit is set in the input. -/
def flagsOfTable (f : Nat) : Nat :=
  convTable.foldl (fun acc p => if f &&& p.1 ≠ 0 then acc ||| p.2 else acc) 0

end QFcntl

namespace QTime

/-- `struct qnx_timeval` from `qtime.c` (`long tv_sec; int tv_usec`). -/
structure qnx_timeval where
  tv_sec : Int
  tv_usec : Int
  deriving DecidableEq

/-- Host `struct timeval`. -/
structure timeval where
  tv_sec : Int
  tv_usec : Int
  deriving DecidableEq

/-- `qnx_timeval_to_linux` from `qtime.c`. -/
def qnx_timeval_to_linux (t : qnx_timeval) : timeval :=
  { tv_sec := t.tv_sec, tv_usec := t.tv_usec }

/-- `_qnx_gettimeofday` from `qtime.c`. The host call `gettimeofday(&t, _)`
is modelled by its outcome: `hostRet` is its return value and `clock` is
the wall-clock value it stores into its first argument on success. The
C routine converts the caller's record into a stack-local `t`, lets the
host overwrite that local, and returns without ever storing to `*when`;
the result pair is (return value, final contents of the caller's record). -/
def _qnx_gettimeofday (when : qnx_timeval) (clock : timeval) (hostRet : Int) :
    Int × qnx_timeval :=
  let t := qnx_timeval_to_linux when
  let _t : timeval := if hostRet = 0 then clock else t
  (hostRet, when)

end QTime

namespace QStat

/-- Host `struct timespec` (64-bit seconds and nanoseconds). -/
structure timespec where
  tv_sec : Int
  tv_nsec : Int
  deriving DecidableEq

/-- Host (musl) `struct stat`, with the host field widths:
`st_dev`, `st_ino`, `st_rdev` are 64-bit unsigned, `st_nlink` 64-bit,
`st_mode`, `st_uid`, `st_gid` 32-bit unsigned, `st_size`, `st_blksize`,
`st_blocks` 64-bit signed, timestamps full `timespec`. -/
structure LinuxStat where
  st_dev : Nat
  st_ino : Nat
  st_nlink : Nat
  st_mode : Nat
  st_uid : Nat
  st_gid : Nat
  st_rdev : Nat
  st_size : Int
  st_blksize : Int
  st_blocks : Int
  st_atim : timespec
  st_mtim : timespec
  st_ctim : timespec
  deriving DecidableEq

/-- `struct qnx_stat` from `qstat.c`: 64-bit `st_ino`, `st_size`,
`st_blocks`; 32-bit `st_dev`, `st_rdev`, `st_uid`, `st_gid`, the three
`__old_*` 32-bit second counts, `st_mode`, `st_nlink`, `st_blocksize`,
`st_nblocks`, `st_blksize`; full `timespec` timestamps. -/
structure QnxStat where
  st_ino : Nat
  st_size : Nat
  st_dev : Nat
  st_rdev : Nat
  st_uid : Nat
  st_gid : Nat
  __old_st_mtime : Nat
  __old_st_atime : Nat
  __old_st_ctime : Nat
  st_mode : Nat
  st_nlink : Nat
  st_blocksize : Nat
  st_nblocks : Nat
  st_blksize : Nat
  st_blocks : Nat
  st_mtim : timespec
  st_atim : timespec
  st_ctim : timespec
  deriving DecidableEq

/-- C integer conversion to an unsigned w-bit field. -/
def toU (w : Nat) (x : Nat) : Nat := x % 2 ^ w

/-- C integer conversion of a signed value to an unsigned w-bit field. -/
def intToU (w : Nat) (x : Int) : Nat := (x % 2 ^ w).toNat

/-- `linux_stat_to_qnx` from `qstat.c`, assignment by assignment; each
store narrows to the declared width of the QNX field. -/
def linux_stat_to_qnx (lstat : LinuxStat) : QnxStat :=
  { st_ino := toU 64 lstat.st_ino
    st_size := intToU 64 lstat.st_size
    st_dev := toU 32 lstat.st_dev
    st_rdev := toU 32 lstat.st_rdev
    st_uid := toU 32 lstat.st_uid
    st_gid := toU 32 lstat.st_gid
    __old_st_atime := intToU 32 lstat.st_atim.tv_sec
    __old_st_mtime := intToU 32 lstat.st_mtim.tv_sec
    __old_st_ctime := intToU 32 lstat.st_ctim.tv_sec
    st_mode := toU 32 lstat.st_mode
    st_nlink := toU 32 lstat.st_nlink
    st_blocksize := intToU 32 lstat.st_blksize
    st_nblocks := intToU 32 lstat.st_blocks
    st_blksize := intToU 32 lstat.st_blksize
    st_blocks := intToU 64 lstat.st_blocks
    st_mtim := lstat.st_mtim
    st_atim := lstat.st_atim
    st_ctim := lstat.st_ctim }

/-- Well-formed host stat: every field fits its host width (and sizes,
block counts, times are non-negative as the host kernel produces them). -/
def LinuxStat.wf (l : LinuxStat) : Prop :=
  l.st_dev < 2 ^ 64 ∧ l.st_ino < 2 ^ 64 ∧ l.st_nlink < 2 ^ 64 ∧
  l.st_mode < 2 ^ 32 ∧ l.st_uid < 2 ^ 32 ∧ l.st_gid < 2 ^ 32 ∧
  l.st_rdev < 2 ^ 64 ∧ 0 ≤ l.st_size ∧ l.st_size < 2 ^ 63 ∧
  0 ≤ l.st_blksize ∧ l.st_blksize < 2 ^ 63 ∧
  0 ≤ l.st_blocks ∧ l.st_blocks < 2 ^ 63

/-- `_qnx_stat` from `qstat.c`. The host `stat` call is modelled by its
outcome (`hostRet`, `hostData`); the caller's buffer is `none` for a
null pointer, `some b` for a buffer currently holding `b`. -/
def _qnx_stat (path : String) (hostRet : Int) (hostData : LinuxStat)
    (buf : Option QnxStat) : Int × Option QnxStat :=
  let _ := path
  if hostRet = 0 ∧ buf.isSome then (hostRet, some (linux_stat_to_qnx hostData))
  else (hostRet, buf)

/-- `_qnx_lstat` from `qstat.c` (host `lstat` modelled by its outcome). -/
def _qnx_lstat (path : String) (hostRet : Int) (hostData : LinuxStat)
    (buf : Option QnxStat) : Int × Option QnxStat :=
  let _ := path
  if hostRet = 0 ∧ buf.isSome then (hostRet, some (linux_stat_to_qnx hostData))
  else (hostRet, buf)

/-- `_qnx_fstat` from `qstat.c` (host `fstat` modelled by its outcome). -/
def _qnx_fstat (fd : Int) (hostRet : Int) (hostData : LinuxStat)
    (buf : Option QnxStat) : Int × Option QnxStat :=
  let _ := fd
  if hostRet = 0 ∧ buf.isSome then (hostRet, some (linux_stat_to_qnx hostData))
  else (hostRet, buf)

/-- `_qnx_fstatat` from `qstat.c` (host `fstatat` modelled by its outcome). -/
def _qnx_fstatat (fd : Int) (path : String) (flags : Int) (hostRet : Int)
    (hostData : LinuxStat) (buf : Option QnxStat) : Int × Option QnxStat :=
  let _ := (fd, path, flags)
  if hostRet = 0 ∧ buf.isSome then (hostRet, some (linux_stat_to_qnx hostData))
  else (hostRet, buf)

end QStat

namespace QSignal

/-- `qnx_sigset_t` from `signal.c`: two `uint32_t` words, i.e. a 64-bit
blob, carried here as its value below `2^64`. -/
structure qnx_sigset_t where
  bits : Nat
  deriving DecidableEq

/-- Host (musl) `sigset_t` is wider than 64 bits; `low` is its first
64-bit word (the part the transcoders touch), `rest` the remaining bits. -/
structure linux_sigset_t where
  low : Nat
  rest : Nat
  deriving DecidableEq

/-- `struct qnx_sigaction` from `signal.c`: handler union (one storage
location, modelled as the pointer value), `sa_flags`, 64-bit mask. -/
structure qnx_sigaction where
  sa_handler : Nat
  sa_flags : Int
  sa_mask : qnx_sigset_t
  deriving DecidableEq

/-- Host `struct sigaction`: handler union, flags, wide mask, restorer. -/
structure linux_sigaction where
  sa_handler : Nat
  sa_flags : Int
  sa_mask : linux_sigset_t
  sa_restorer : Nat
  deriving DecidableEq

/-- `qnx_sigaction_to_linux` from `signal.c`: copies the handler and the
flags, then copies exactly 64 bits of mask data as one block
(`*(uint64_t *)&linux_sa->sa_mask = *(uint64_t *)&qnx_sa->sa_mask`);
the rest of the host record (wide mask tail, restorer) is not written. -/
def qnx_sigaction_to_linux (qnx_sa : qnx_sigaction) (linux_sa : linux_sigaction) :
    linux_sigaction :=
  { linux_sa with
    sa_handler := qnx_sa.sa_handler
    sa_flags := qnx_sa.sa_flags
    sa_mask := { linux_sa.sa_mask with low := qnx_sa.sa_mask.bits % 2 ^ 64 } }

/-- `linux_sigaction_to_qnx` from `signal.c`: copies the handler and the
flags, then copies the first 64 bits of the host mask as one block into
the (exactly 64-bit) QNX mask. -/
def linux_sigaction_to_qnx (linux_sa : linux_sigaction) : qnx_sigaction :=
  { sa_handler := linux_sa.sa_handler
    sa_flags := linux_sa.sa_flags
    sa_mask := { bits := linux_sa.sa_mask.low % 2 ^ 64 } }

end QSignal

namespace Spawn

/-- Spawn inheritance flag values from `spawn.c`. -/
def SPAWN_SETGROUP : Nat := 0x00000001

def SPAWN_SETSIGMASK : Nat := 0x00000002

def SPAWN_SETSIGDEF : Nat := 0x00000004

def SPAWN_SETSIGIGN : Nat := 0x00000008

def SPAWN_SETSID : Nat := 0x00000200

def SPAWN_SETSTACKMAX : Nat := 0x00001000

def SPAWN_NOZOMBIE : Nat := 0x00002000

def SPAWN_EXEC : Nat := 0x00010000

/-- `NSIG = _SIGMAX + 1 = 65` from `spawn.c`. -/
def NSIG : Nat := 65

/-- A `sigset_t` as the child-setup code observes it: `sigismember`. -/
structure SigSet where
  mem : Nat → Bool

/-- `struct inheritance` from `spawn.c` (the fields the code reads). -/
structure Inheritance where
  flags : Nat
  pgroup : Int
  sigmask : SigSet
  sigdefault : SigSet
  sigignore : SigSet
  stack_max : Nat

/-- A signal disposition as set by `signal(i, h)`. -/
inductive Disp where
  | dfl
  | ign
  | handler (addr : Nat)
  deriving DecidableEq

/-- Observable per-process state the child-setup steps mutate. -/
structure ChildState where
  pgid : Option Int
  mask : Option SigSet
  sessionLeader : Bool
  stackLimit : Option Nat
  disp : Nat → Disp
  fds : Nat → Option Nat

/-- One `for (i = 1; i < NSIG; i++) if (sigismember(set, i)) signal(i, v)`
pass, as a fold over the listed signal numbers. -/
def sigPassList (s : SigSet) (v : Disp) : List Nat → (Nat → Disp) → (Nat → Disp)
  | [], d => d
  | i :: is, d => sigPassList s v is (if s.mem i then Function.update d i v else d)

/-- The disposition pass over signal numbers `1 .. NSIG-1`. -/
def sigPass (s : SigSet) (v : Disp) (d : Nat → Disp) : Nat → Disp :=
  sigPassList s v (List.range' 1 64) d

/-- The descriptor-remap loop from `spawn.c`: for each `i < fd_count`,
if `fd_map[i] != i` then `dup2(fd_map[i], i); close(fd_map[i])`. -/
def fdRemapList : List Nat → (Nat → Nat) → (Nat → Option Nat) → (Nat → Option Nat)
  | [], _, fds => fds
  | i :: is, m, fds =>
    fdRemapList is m
      (if m i ≠ i then
        Function.update (Function.update fds i (fds (m i))) (m i) none
      else fds)

/-- The child-side setup sequence of `spawn`, in source order: process
group, signal mask, session, stack limit, default-disposition pass,
ignore-disposition pass, descriptor remapping. -/
def childSetup (inherit : Inheritance) (fd_count : Nat) (fd_map : Nat → Nat)
    (st : ChildState) : ChildState :=
  let st := if inherit.flags &&& SPAWN_SETGROUP ≠ 0 then
    { st with pgid := some inherit.pgroup } else st
  let st := if inherit.flags &&& SPAWN_SETSIGMASK ≠ 0 then
    { st with mask := some inherit.sigmask } else st
  let st := if inherit.flags &&& SPAWN_SETSID ≠ 0 then
    { st with sessionLeader := true } else st
  let st := if inherit.flags &&& SPAWN_SETSTACKMAX ≠ 0 then
    { st with stackLimit := some inherit.stack_max } else st
  let st := if inherit.flags &&& SPAWN_SETSIGDEF ≠ 0 then
    { st with disp := sigPass inherit.sigdefault .dfl st.disp } else st
  let st := if inherit.flags &&& SPAWN_SETSIGIGN ≠ 0 then
    { st with disp := sigPass inherit.sigignore .ign st.disp } else st
  { st with fds := fdRemapList (List.range fd_count) fd_map st.fds }

/-- How one invocation of `spawn` ends, seen from the process running it:
`returned pid` — the function returns `pid` to its caller without having
run any child-setup step; `execed` — the child ran the setup steps and
`execve` replaced the image; `fellThrough` — the child ran the setup
steps, `execve` failed and returned, and control falls off the end of
`spawn` back into the caller's code. -/
inductive SpawnOutcome where
  | returned (pid : Int)
  | execed (st : ChildState) (path : String)
  | fellThrough (st : ChildState)

/-- `spawn` from `spawn.c`. `forkRes` is the value `fork()` returns in
the process being followed (0 in the child, the child's pid in the
parent, -1 on failure); `execveOk` tells whether the host `execve`
succeeds; `st0` is the child's inherited state. -/
def spawn (path : String) (fd_count : Nat) (fd_map : Nat → Nat)
    (inherit : Inheritance) (forkRes : Int) (execveOk : Bool)
    (st0 : ChildState) : SpawnOutcome :=
  let pid : Int := if inherit.flags &&& SPAWN_EXEC ≠ 0 then 0 else forkRes
  if pid ≠ 0 then .returned pid
  else
    let st := childSetup inherit fd_count fd_map st0
    if execveOk then .execed st path else .fellThrough st

/-- `P_WAIT`..`P_NOWAITO` mode values from `spawn.c`. -/
def P_WAIT : Nat := 0

def P_NOWAIT : Nat := 1

def P_OVERLAY : Nat := 2

def P_NOWAITO : Nat := 3

/-- Outcome of `waitpid(pid, &status, 0)`: `ok status` when the call
returns after the child terminated with wait-status `status`; `err`
when it returns -1. -/
inductive WaitRes where
  | ok (status : Int)
  | err
  deriving DecidableEq

/-- The `switch (mode)` of `spawnve`: the flags chosen for each mode,
`none` for the `EINVAL` default branch. -/
def modeFlags (mode : Nat) : Option Nat :=
  if mode = P_WAIT ∨ mode = P_NOWAIT then some 0
  else if mode = P_OVERLAY then some SPAWN_EXEC
  else if mode = P_NOWAITO then some SPAWN_NOZOMBIE
  else none

/-- `spawnve` from `spawn.c`, followed in the process that called it.
`attr0` supplies the values of the uninitialized non-flag fields of the
local `struct inheritance attr`; `waitRes pid` is the outcome of
`waitpid(pid, &pid, 0)`. The result is `some r` when `spawnve` returns
`r` to its caller, `none` on the child continuation that never returns
normally (image replaced, or `spawn`'s failed-exec fallthrough). -/
def spawnve (mode : Nat) (path : String) (attr0 : Inheritance)
    (forkRes : Int) (execveOk : Bool) (st0 : ChildState)
    (waitRes : Int → WaitRes) : Option Int :=
  match modeFlags mode with
  | none => some (-1)
  | some fl =>
    match spawn path 0 (fun i => i) { attr0 with flags := fl } forkRes execveOk st0 with
    | .returned pid =>
      some (if pid ≠ -1 then
        if mode = P_WAIT then
          match waitRes pid with
          | .err => -1
          | .ok status => status
        else pid
      else pid)
    | _ => none

end Spawn

namespace QDir

/-- A byte buffer: the byte stored at each offset. -/
def Buffer := Nat → Nat

/-- Store one byte (C stores narrow to 8 bits). -/
def writeByte (b : Buffer) (i v : Nat) : Buffer :=
  fun j => if j = i then v % 256 else b j

/-- Read a little-endian `w`-byte unsigned field at `off`. -/
def readLE (b : Buffer) : Nat → Nat → Nat
  | _, 0 => 0
  | off, w + 1 => b off + 256 * readLE b (off + 1) w

/-- Store a little-endian `w`-byte unsigned field at `off`. -/
def writeLE : Buffer → Nat → Nat → Nat → Buffer
  | b, _, _, 0 => b
  | b, off, v, w + 1 => writeLE (writeByte b off v) (off + 1) (v / 256) w

/-- Read a NUL-terminated byte string at `off` (fuel-bounded). -/
def readCStr : Buffer → Nat → Nat → List Nat
  | _, _, 0 => []
  | b, off, fuel + 1 => if b off = 0 then [] else b off :: readCStr b (off + 1) fuel

/-- `strcpy` into the buffer at `off`: the bytes then a NUL terminator. -/
def writeCStr : Buffer → Nat → List Nat → Buffer
  | b, off, [] => writeByte b off 0
  | b, off, c :: cs => writeCStr (writeByte b off c) (off + 1) cs

/-- All bytes of the buffer are in range. -/
def Buffer.wf (b : Buffer) : Prop := ∀ i, b i < 256

/-- `_qnx_readdir`'s transcoding step from `qdir.c`, on the shared buffer
that holds the host `struct dirent` (musl layout: `d_ino` u64 at 0,
`d_off` u64 at 8, `d_reclen` u16 at 16, `d_type` u8 at 18, `d_name` at
19) and is overwritten with the `struct qnx_dirent` layout (`d_ino` u64
at 0, `d_offset` u64 at 8, `d_reclen` i16 at 16, `d_namelen` i16 at 18,
`d_name` at 20). `memcpy(&local, raw, sizeof(struct dirent))` snapshots
the buffer into `snapshot`; every host field is then read from the
snapshot, never from the partially overwritten buffer. -/
def transcodeDirent (b : Buffer) (fuel : Nat) : Buffer :=
  let snapshot := b
  let b := writeLE b 0 (readLE snapshot 0 8) 8
  let b := writeLE b 8 (readLE snapshot 8 8) 8
  let b := writeLE b 16 (readLE snapshot 16 2) 2
  let b := writeLE b 18 (readCStr snapshot 19 fuel).length 2
  let b := writeCStr b 20 (readCStr snapshot 19 fuel)
  b

/-- `_qnx_readdir` from `qdir.c`: the host `readdir` result is `none`
for NULL (passed through) or `some` buffer, which is transcoded in
place. -/
def _qnx_readdir (host : Option Buffer) (fuel : Nat) : Option Buffer :=
  match host with
  | none => none
  | some raw => some (transcodeDirent raw fuel)


end QDir
namespace Spawn

/-- Example child state for concrete evaluations. -/
def stEx : ChildState :=
  { pgid := none, mask := none, sessionLeader := false, stackLimit := none,
    disp := fun _ => .handler 0, fds := fun _ => none }

/-- Example inheritance record with the given flags; both disposition
signal sets contain exactly signal 5. -/
def inhEx (fl : Nat) : Inheritance :=
  { flags := fl, pgroup := 0, sigmask := ⟨fun _ => false⟩,
    sigdefault := ⟨fun n => n == 5⟩, sigignore := ⟨fun n => n == 5⟩,
    stack_max := 4096 }

end Spawn

namespace QStat

/-- Example host stat record for concrete evaluations. -/
def statEx : LinuxStat :=
  { st_dev := 66305, st_ino := 131462, st_nlink := 1, st_mode := 33188,
    st_uid := 1000, st_gid := 1000, st_rdev := 0, st_size := 4096,
    st_blksize := 4096, st_blocks := 8,
    st_atim := ⟨1700000000, 1⟩, st_mtim := ⟨1700000001, 2⟩,
    st_ctim := ⟨1700000002, 3⟩ }

end QStat

namespace QDir

/-- Bytes of an example host `struct dirent` in the shared buffer:
`d_ino = 1`, `d_off = 2`, `d_reclen = 24`, `d_type = 4`, name "ab". -/
def bufExBytes : List Nat :=
  [1, 0, 0, 0, 0, 0, 0, 0,
   2, 0, 0, 0, 0, 0, 0, 0,
   24, 0, 4, 97, 98, 0]

/-- The example buffer (zero beyond the record; the `% 256` keeps every
byte in range by construction). -/
def bufEx : Buffer := fun i => bufExBytes.getD i 0 % 256

end QDir

namespace QFcntl

lemma foldl_conv_testBit (l : List (Nat × Nat)) (f : Nat) (k : Nat) :
    ∀ acc : Nat,
      (l.foldl (fun a p => if f &&& p.1 ≠ 0 then a ||| p.2 else a) acc).testBit k
        ↔ acc.testBit k ∨ ∃ p ∈ l, f &&& p.1 ≠ 0 ∧ p.2.testBit k := by
  induction l with
  | nil => intro acc; simp
  | cons p l ih =>
    intro acc
    simp only [List.foldl_cons, List.mem_cons]
    by_cases h : f &&& p.1 ≠ 0
    · rw [if_pos h, ih]
      simp only [Nat.testBit_or]
      constructor
      · rintro (hb | ⟨q, hq, hfq, hbq⟩)
        · rcases Bool.or_eq_true_iff.mp hb with hb | hb
          · exact Or.inl hb
          · exact Or.inr ⟨p, Or.inl rfl, h, hb⟩
        · exact Or.inr ⟨q, Or.inr hq, hfq, hbq⟩
      · rintro (hb | ⟨q, hq | hq, hfq, hbq⟩)
        · exact Or.inl (Bool.or_eq_true_iff.mpr (Or.inl hb))
        · exact Or.inl (Bool.or_eq_true_iff.mpr (Or.inr (hq ▸ hbq)))
        · exact Or.inr ⟨q, hq, hfq, hbq⟩
    · rw [if_neg h, ih]
      constructor
      · rintro (hb | ⟨q, hq, hfq, hbq⟩)
        · exact Or.inl hb
        · exact Or.inr ⟨q, Or.inr hq, hfq, hbq⟩
      · rintro (hb | ⟨q, hq | hq, hfq, hbq⟩)
        · exact Or.inl hb
        · exact absurd (hq ▸ hfq) h
        · exact Or.inr ⟨q, hq, hfq, hbq⟩

end QFcntl

namespace Spawn

lemma sigPassList_eval (s : SigSet) (v : Disp) :
    ∀ (l : List Nat) (d : Nat → Disp) (n : Nat),
      sigPassList s v l d n = if n ∈ l ∧ s.mem n then v else d n := by
  intro l
  induction l with
  | nil => intro d n; simp [sigPassList]
  | cons i is ih =>
    intro d n
    show sigPassList s v is (if s.mem i then Function.update d i v else d) n
        = if n ∈ i :: is ∧ s.mem n then v else d n
    rw [ih]
    simp only [List.mem_cons]
    by_cases hni : n = i <;> by_cases hmi : s.mem i = true <;>
      by_cases hnis : n ∈ is <;> by_cases hmn : s.mem n = true <;>
      simp_all [Function.update_apply]

lemma sigPass_eval (s : SigSet) (v : Disp) (d : Nat → Disp) (n : Nat) :
    sigPass s v d n = if (1 ≤ n ∧ n ≤ 64) ∧ s.mem n then v else d n := by
  have hiff : n ∈ List.range' 1 64 ↔ 1 ≤ n ∧ n ≤ 64 := by
    rw [List.mem_range']
    constructor
    · rintro ⟨k, hk, rfl⟩; omega
    · intro h; exact ⟨n - 1, by omega, by omega⟩
  rw [sigPass, sigPassList_eval]
  by_cases h : (1 ≤ n ∧ n ≤ 64) ∧ s.mem n = true
  · rw [if_pos ⟨hiff.mpr h.1, h.2⟩, if_pos h]
  · rw [if_neg (fun hc => h ⟨hiff.mp hc.1, hc.2⟩), if_neg h]

set_option maxRecDepth 4000 in
lemma childSetup_disp (inherit : Inheritance) (fd_count : Nat)
    (fd_map : Nat → Nat) (st : ChildState) :
    (childSetup inherit fd_count fd_map st).disp =
      (if inherit.flags &&& SPAWN_SETSIGIGN ≠ 0 then
        sigPass inherit.sigignore .ign
          (if inherit.flags &&& SPAWN_SETSIGDEF ≠ 0 then
            sigPass inherit.sigdefault .dfl st.disp
          else st.disp)
      else
        if inherit.flags &&& SPAWN_SETSIGDEF ≠ 0 then
          sigPass inherit.sigdefault .dfl st.disp
        else st.disp) := by
  simp only [childSetup]
  split_ifs <;> rfl

end Spawn

namespace QDir
lemma writeByte_ne (b : Buffer) (i v j : Nat) (h : j ≠ i) :
    writeByte b i v j = b j := by
  simp [writeByte, h]

lemma writeLE_outside :
    ∀ (w : Nat) (b : Buffer) (off v j : Nat), (j < off ∨ off + w ≤ j) →
      writeLE b off v w j = b j := by
  intro w
  induction w with
  | zero => intro b off v j _; rfl
  | succ w ih =>
    intro b off v j h
    show writeLE (writeByte b off v) (off + 1) (v / 256) w j = b j
    rw [ih (writeByte b off v) (off + 1) (v / 256) j (by omega)]
    exact writeByte_ne b off v j (by omega)

lemma readLE_congr :
    ∀ (w : Nat) (b₁ b₂ : Buffer) (off : Nat),
      (∀ j, off ≤ j → j < off + w → b₁ j = b₂ j) →
      readLE b₁ off w = readLE b₂ off w := by
  intro w
  induction w with
  | zero => intro b₁ b₂ off _; rfl
  | succ w ih =>
    intro b₁ b₂ off h
    show b₁ off + 256 * readLE b₁ (off + 1) w
        = b₂ off + 256 * readLE b₂ (off + 1) w
    rw [h off (le_refl off) (by omega),
      ih b₁ b₂ (off + 1) (fun j h1 h2 => h j (by omega) (by omega))]

lemma readLE_lt :
    ∀ (w : Nat) (b : Buffer) (off : Nat),
      (∀ j, off ≤ j → j < off + w → b j < 256) →
      readLE b off w < 256 ^ w := by
  intro w
  induction w with
  | zero => intro b off _; simp [readLE]
  | succ w ih =>
    intro b off h
    show b off + 256 * readLE b (off + 1) w < 256 ^ (w + 1)
    have h1 : b off < 256 := h off (le_refl off) (by omega)
    have h2 : readLE b (off + 1) w < 256 ^ w :=
      ih b (off + 1) (fun j hj1 hj2 => h j (by omega) (by omega))
    calc b off + 256 * readLE b (off + 1) w
        < 256 + 256 * readLE b (off + 1) w := by omega
      _ = 256 * (readLE b (off + 1) w + 1) := by ring
      _ ≤ 256 * 256 ^ w := by
          exact Nat.mul_le_mul_left 256 (by omega)
      _ = 256 ^ (w + 1) := by ring

lemma readLE_writeLE :
    ∀ (w : Nat) (b : Buffer) (off v : Nat),
      readLE (writeLE b off v w) off w = v % 256 ^ w := by
  intro w
  induction w with
  | zero => intro b off v; simp [readLE, writeLE, Nat.mod_one]
  | succ w ih =>
    intro b off v
    show readLE (writeLE (writeByte b off v) (off + 1) (v / 256) w) off (w + 1)
        = v % 256 ^ (w + 1)
    have hout : writeLE (writeByte b off v) (off + 1) (v / 256) w off
        = (writeByte b off v) off :=
      writeLE_outside w (writeByte b off v) (off + 1) (v / 256) off (by omega)
    have hbyte : (writeByte b off v) off = v % 256 := by simp [writeByte]
    show writeLE (writeByte b off v) (off + 1) (v / 256) w off
          + 256 * readLE (writeLE (writeByte b off v) (off + 1) (v / 256) w)
            (off + 1) w
        = v % 256 ^ (w + 1)
    rw [hout, hbyte, ih (writeByte b off v) (off + 1) (v / 256)]
    rw [pow_succ', Nat.mod_mul]

lemma writeCStr_outside :
    ∀ (cs : List Nat) (b : Buffer) (off j : Nat),
      (j < off ∨ off + cs.length + 1 ≤ j) →
      writeCStr b off cs j = b j := by
  intro cs
  induction cs with
  | nil =>
    intro b off j h
    show writeByte b off 0 j = b j
    exact writeByte_ne b off 0 j (by simp at h; omega)
  | cons c cs ih =>
    intro b off j h
    show writeCStr (writeByte b off c) (off + 1) cs j = b j
    rw [ih (writeByte b off c) (off + 1) j (by simp at h ⊢; omega)]
    exact writeByte_ne b off c j (by simp at h; omega)

lemma readCStr_mem :
    ∀ (fuel : Nat) (b : Buffer) (off : Nat), Buffer.wf b →
      ∀ c ∈ readCStr b off fuel, c ≠ 0 ∧ c < 256 := by
  intro fuel
  induction fuel with
  | zero => intro b off _ c hc; simp [readCStr] at hc
  | succ fuel ih =>
    intro b off hwf c hc
    by_cases h0 : b off = 0
    · simp [readCStr, h0] at hc
    · simp only [readCStr, if_neg h0, List.mem_cons] at hc
      rcases hc with hc | hc
      · exact hc ▸ ⟨h0, hwf off⟩
      · exact ih b (off + 1) hwf c hc

lemma readCStr_length_le :
    ∀ (fuel : Nat) (b : Buffer) (off : Nat),
      (readCStr b off fuel).length ≤ fuel := by
  intro fuel
  induction fuel with
  | zero => intro b off; simp [readCStr]
  | succ fuel ih =>
    intro b off
    by_cases h0 : b off = 0
    · simp [readCStr, h0]
    · simp only [readCStr, if_neg h0, List.length_cons]
      exact Nat.succ_le_succ (ih b (off + 1))

lemma readCStr_writeCStr :
    ∀ (cs : List Nat) (b : Buffer) (off fuel : Nat),
      (∀ c ∈ cs, c ≠ 0 ∧ c < 256) → cs.length ≤ fuel →
      readCStr (writeCStr b off cs) off fuel = cs := by
  intro cs
  induction cs with
  | nil =>
    intro b off fuel _ _
    cases fuel with
    | zero => rfl
    | succ fuel => simp [readCStr, writeCStr, writeByte]
  | cons c cs ih =>
    intro b off fuel hcs hlen
    obtain ⟨fuel, rfl⟩ : ∃ k, fuel = k + 1 := by
      cases fuel with
      | zero => simp at hlen
      | succ k => exact ⟨k, rfl⟩
    have hc := hcs c (List.mem_cons_self c cs)
    have hoff : writeCStr (writeByte b off c) (off + 1) cs off
        = (writeByte b off c) off :=
      writeCStr_outside cs (writeByte b off c) (off + 1) off (by omega)
    have hbyte : (writeByte b off c) off = c := by
      simp [writeByte, Nat.mod_eq_of_lt hc.2]
    show readCStr (writeCStr (writeByte b off c) (off + 1) cs) off (fuel + 1)
        = c :: cs
    simp only [readCStr, hoff, hbyte, if_neg hc.1]
    exact congrArg (c :: ·)
      (ih (writeByte b off c) (off + 1) fuel
        (fun x hx => hcs x (List.mem_cons_of_mem c hx))
        (by simpa using hlen))

lemma bufEx_wf : Buffer.wf bufEx :=
  fun _ => Nat.mod_lt _ (by norm_num)

end QDir

namespace QFcntl

/-- Claim C4: for every foreign open-mode bitmask, `qnx_flag_to_linux`
returns exactly the bitwise OR of the host flag values whose
corresponding foreign bits are set (the fold of the mapping table), and
a bit is set in the output exactly when it belongs to the host flag of
some table entry whose foreign bit is set in the input — so foreign
bits with no table entry are silently dropped; the function is total. -/
theorem qnx_flag_to_linux_exact (f : Nat) :
    qnx_flag_to_linux f = flagsOfTable f ∧
    ∀ k, (qnx_flag_to_linux f).testBit k ↔
      ∃ p ∈ convTable, f &&& p.1 ≠ 0 ∧ p.2.testBit k := by
  have hev : qnx_flag_to_linux f = flagsOfTable f := rfl
  refine ⟨hev, fun k => ?_⟩
  rw [hev, flagsOfTable, foldl_conv_testBit]
  simp

end QFcntl

namespace Spawn

/-- Claim C1: in the spawn child setup, when both `SPAWN_SETSIGDEF` and
`SPAWN_SETSIGIGN` are set and signal `N` (in host range 1..64) is a
member of both `sigdefault` and `sigignore`, the final disposition of
`N` is SIG_IGN, because the ignore pass runs strictly after the default
pass. -/
theorem spawn_sigign_wins_over_sigdef (inherit : Inheritance)
    (fd_count : Nat) (fd_map : Nat → Nat) (st : ChildState) (N : Nat)
    (hdef : inherit.flags &&& SPAWN_SETSIGDEF ≠ 0)
    (hign : inherit.flags &&& SPAWN_SETSIGIGN ≠ 0)
    (hlo : 1 ≤ N) (hhi : N ≤ 64)
    (hmemdef : inherit.sigdefault.mem N = true)
    (hmemign : inherit.sigignore.mem N = true) :
    (childSetup inherit fd_count fd_map st).disp N = .ign := by
  rw [childSetup_disp, if_pos hign, sigPass_eval,
    if_pos ⟨⟨hlo, hhi⟩, hmemign⟩]

/-- Witness for C1 at a concrete input: both disposition flags set
(flags = 12), signal 5 in both sets. -/
theorem spawn_sigign_wins_witness :
    (childSetup (inhEx 12) 0 (fun i => i) stEx).disp 5 = .ign :=
  spawn_sigign_wins_over_sigdef (inhEx 12) 0 (fun i => i) stEx 5
    (by decide) (by decide) (by decide) (by decide) (by decide) (by decide)

/-- Claim C2 (code bug): in the child, when `execve` fails, `spawn` does
NOT terminate the process — there is no exit call after `execve`, so
control falls off the end of the function (the `.fellThrough` outcome)
and returns into the code that called `spawn`, contradicting the claim
(and the source's own comment `will not reach here`). Evaluated at a
concrete failing input: flags 0, fork result 0 (child), `execve`
failing. -/
theorem spawn_exec_fail_falls_through :
    spawn "/nonexistent" 0 (fun i => i) (inhEx 0) 0 false stEx
      = .fellThrough stEx := rfl

/-- Claim C3: without `SPAWN_EXEC`, if `fork` fails (returns -1), `spawn`
returns -1 to the original caller: the outcome is `.returned (-1)`, the
one outcome in which no child-setup step (group, mask, session, stack
limit, dispositions, descriptor remap) and no `execve` has run. -/
theorem spawn_fork_fail_returns (path : String) (fd_count : Nat)
    (fd_map : Nat → Nat) (inherit : Inheritance) (execveOk : Bool)
    (st0 : ChildState) (hexec : inherit.flags &&& SPAWN_EXEC = 0) :
    spawn path fd_count fd_map inherit (-1) execveOk st0
      = .returned (-1) := by
  simp [spawn, hexec]

/-- Witness for C3 at a concrete input. -/
theorem spawn_fork_fail_returns_witness :
    spawn "/bin/true" 0 (fun i => i) (inhEx 0) (-1) true stEx
      = .returned (-1) :=
  spawn_fork_fail_returns "/bin/true" 0 (fun i => i) (inhEx 0) true stEx
    (by decide)

/-- Claim C5: in `P_WAIT` mode, when `spawn` returns a pid (not -1) and
`waitpid` returns after the child terminated with status `s`, `spawnve`
returns that status unchanged as its result. -/
theorem spawnve_pwait_status (path : String) (attr0 : Inheritance)
    (st0 : ChildState) (execveOk : Bool) (waitRes : Int → WaitRes)
    (p s : Int) (hp0 : p ≠ 0) (hp1 : p ≠ -1) (hw : waitRes p = .ok s) :
    spawnve P_WAIT path attr0 p execveOk st0 waitRes = some s := by
  have hs : spawn path 0 (fun i => i) { attr0 with flags := 0 } p execveOk st0
      = .returned p := by
    simp [spawn, SPAWN_EXEC, hp0]
  simp only [spawnve, modeFlags, P_WAIT, P_NOWAIT, P_OVERLAY, P_NOWAITO]
  norm_num
  rw [hs]
  simp [hp1, hw]

/-- Witness for C5 at a concrete input: pid 7, wait status 42. -/
theorem spawnve_pwait_status_witness :
    spawnve P_WAIT "/bin/true" (inhEx 0) 7 true stEx (fun _ => .ok 42)
      = some 42 :=
  spawnve_pwait_status "/bin/true" (inhEx 0) stEx true (fun _ => .ok 42)
    7 42 (by decide) (by decide) rfl

end Spawn

namespace QTime

/-- Claim C6 (code bug): `_qnx_gettimeofday` never fills the caller's
foreign timeval record with the host clock: the host clock value is
written into a discarded stack-local, and the caller's record is
returned unchanged for every input — contradicting the claim that the
entry point fills the record with the clock value obtained on the
call. -/
theorem qnx_gettimeofday_ignores_host_clock (when : qnx_timeval)
    (clock : timeval) (hostRet : Int) :
    (_qnx_gettimeofday when clock hostRet).2 = when := rfl

end QTime

namespace QStat

/-- Counterexample to claim C7 as stated: a host stat whose device number
needs more than 32 bits is NOT preserved exactly — the 64-bit host
`st_dev` is narrowed into the 32-bit QNX `st_dev`, so `2^32` becomes 0. -/
theorem linux_stat_to_qnx_not_exact_cex :
    (linux_stat_to_qnx { statEx with st_dev := 2 ^ 32 }).st_dev
      ≠ ({ statEx with st_dev := 2 ^ 32 } : LinuxStat).st_dev := by decide

/-- Claim C7 (amended): for every well-formed host stat, the transcoder
preserves inode, size, uid, gid, mode and the full nanosecond
timestamps exactly; device, rdev, link-count, the legacy 32-bit second
counts and the 32-bit block fields are narrowed modulo 2^32 (silent
width truncation); every foreign field is assigned from a host field,
none left uninitialized (this foreign layout has no host-absent field
to zero). -/
theorem linux_stat_to_qnx_preserves (l : LinuxStat) (hwf : l.wf) :
    (linux_stat_to_qnx l).st_ino = l.st_ino ∧
    (linux_stat_to_qnx l).st_size = l.st_size.toNat ∧
    (linux_stat_to_qnx l).st_uid = l.st_uid ∧
    (linux_stat_to_qnx l).st_gid = l.st_gid ∧
    (linux_stat_to_qnx l).st_mode = l.st_mode ∧
    (linux_stat_to_qnx l).st_nlink = l.st_nlink % 2 ^ 32 ∧
    (linux_stat_to_qnx l).st_dev = l.st_dev % 2 ^ 32 ∧
    (linux_stat_to_qnx l).st_rdev = l.st_rdev % 2 ^ 32 ∧
    (linux_stat_to_qnx l).__old_st_atime = (l.st_atim.tv_sec % 2 ^ 32).toNat ∧
    (linux_stat_to_qnx l).__old_st_mtime = (l.st_mtim.tv_sec % 2 ^ 32).toNat ∧
    (linux_stat_to_qnx l).__old_st_ctime = (l.st_ctim.tv_sec % 2 ^ 32).toNat ∧
    (linux_stat_to_qnx l).st_mtim = l.st_mtim ∧
    (linux_stat_to_qnx l).st_atim = l.st_atim ∧
    (linux_stat_to_qnx l).st_ctim = l.st_ctim ∧
    (linux_stat_to_qnx l).st_blocks = l.st_blocks.toNat ∧
    (linux_stat_to_qnx l).st_nblocks = (l.st_blocks % 2 ^ 32).toNat ∧
    (linux_stat_to_qnx l).st_blocksize = (l.st_blksize % 2 ^ 32).toNat ∧
    (linux_stat_to_qnx l).st_blksize = (l.st_blksize % 2 ^ 32).toNat := by
  obtain ⟨hdev, hino, hnl, hmode, huid, hgid, hrdev, hsz0, hsz1,
    hbk0, hbk1, hbl0, hbl1⟩ := hwf
  refine ⟨Nat.mod_eq_of_lt hino, ?_, Nat.mod_eq_of_lt huid,
    Nat.mod_eq_of_lt hgid, Nat.mod_eq_of_lt hmode, rfl, rfl, rfl, rfl, rfl,
    rfl, rfl, rfl, rfl, ?_, rfl, rfl, rfl⟩
  · show (l.st_size % 2 ^ 64).toNat = l.st_size.toNat
    rw [Int.emod_eq_of_lt hsz0 (hsz1.trans (by norm_num))]
  · show (l.st_blocks % 2 ^ 64).toNat = l.st_blocks.toNat
    rw [Int.emod_eq_of_lt hbl0 (hbl1.trans (by norm_num))]

/-- Witness for the amended C7 at a concrete well-formed host stat. -/
theorem linux_stat_to_qnx_preserves_witness :
    (linux_stat_to_qnx statEx).st_ino = statEx.st_ino ∧
    (linux_stat_to_qnx statEx).st_size = statEx.st_size.toNat ∧
    (linux_stat_to_qnx statEx).st_uid = statEx.st_uid ∧
    (linux_stat_to_qnx statEx).st_gid = statEx.st_gid ∧
    (linux_stat_to_qnx statEx).st_mode = statEx.st_mode ∧
    (linux_stat_to_qnx statEx).st_nlink = statEx.st_nlink % 2 ^ 32 ∧
    (linux_stat_to_qnx statEx).st_dev = statEx.st_dev % 2 ^ 32 ∧
    (linux_stat_to_qnx statEx).st_rdev = statEx.st_rdev % 2 ^ 32 ∧
    (linux_stat_to_qnx statEx).__old_st_atime
        = (statEx.st_atim.tv_sec % 2 ^ 32).toNat ∧
    (linux_stat_to_qnx statEx).__old_st_mtime
        = (statEx.st_mtim.tv_sec % 2 ^ 32).toNat ∧
    (linux_stat_to_qnx statEx).__old_st_ctime
        = (statEx.st_ctim.tv_sec % 2 ^ 32).toNat ∧
    (linux_stat_to_qnx statEx).st_mtim = statEx.st_mtim ∧
    (linux_stat_to_qnx statEx).st_atim = statEx.st_atim ∧
    (linux_stat_to_qnx statEx).st_ctim = statEx.st_ctim ∧
    (linux_stat_to_qnx statEx).st_blocks = statEx.st_blocks.toNat ∧
    (linux_stat_to_qnx statEx).st_nblocks
        = (statEx.st_blocks % 2 ^ 32).toNat ∧
    (linux_stat_to_qnx statEx).st_blocksize
        = (statEx.st_blksize % 2 ^ 32).toNat ∧
    (linux_stat_to_qnx statEx).st_blksize
        = (statEx.st_blksize % 2 ^ 32).toNat :=
  linux_stat_to_qnx_preserves statEx (by simp only [LinuxStat.wf]; decide)

/-- Claim C10: for each stat-family entry point, when the host call
fails (non-zero return) or the caller's buffer pointer is null, the
caller's foreign stat buffer is left completely unchanged (the
transcoder is only invoked on host success with a non-null buffer). -/
theorem qnx_stat_family_error_keeps_buffer (path : String) (fd flags : Int)
    (hostRet : Int) (hostData : LinuxStat) (buf : Option QnxStat)
    (h : hostRet ≠ 0 ∨ buf = none) :
    (_qnx_stat path hostRet hostData buf).2 = buf ∧
    (_qnx_lstat path hostRet hostData buf).2 = buf ∧
    (_qnx_fstat fd hostRet hostData buf).2 = buf ∧
    (_qnx_fstatat fd path flags hostRet hostData buf).2 = buf := by
  have hc : ¬(hostRet = 0 ∧ buf.isSome = true) := by
    rcases h with h | h
    · exact fun hc => h hc.1
    · subst h; rintro ⟨-, hc⟩; simp at hc
  refine ⟨?_, ?_, ?_, ?_⟩ <;>
    simp [_qnx_stat, _qnx_lstat, _qnx_fstat, _qnx_fstatat, hc]

/-- Witness for C10 at a concrete input: null output buffer. -/
theorem qnx_stat_family_error_keeps_buffer_witness :
    (_qnx_stat "/tmp/f" 0 statEx none).2 = none ∧
    (_qnx_lstat "/tmp/f" 0 statEx none).2 = none ∧
    (_qnx_fstat 3 0 statEx none).2 = none ∧
    (_qnx_fstatat 3 "/tmp/f" 0 0 statEx none).2 = none :=
  qnx_stat_family_error_keeps_buffer "/tmp/f" 3 0 0 statEx none (Or.inr rfl)

end QStat

namespace QSignal

/-- Claim C8: the signal-action transcoders copy the 64-bit signal-set
as one opaque block (the first 64 bits of the wider host mask), so for
every foreign signal-action record the foreign-to-host-to-foreign round
trip reproduces the handler pointer, the flags, and the exact bit
pattern of the mask; the untouched tail of the host mask and the
restorer are left as they were. -/
theorem qnx_sigaction_roundtrip (q : qnx_sigaction) (l : linux_sigaction)
    (hq : q.sa_mask.bits < 2 ^ 64) :
    (qnx_sigaction_to_linux q l).sa_mask.low = q.sa_mask.bits ∧
    (qnx_sigaction_to_linux q l).sa_mask.rest = l.sa_mask.rest ∧
    (qnx_sigaction_to_linux q l).sa_restorer = l.sa_restorer ∧
    linux_sigaction_to_qnx (qnx_sigaction_to_linux q l) = q := by
  refine ⟨Nat.mod_eq_of_lt hq, rfl, rfl, ?_⟩
  have hm : q.sa_mask.bits % 2 ^ 64 % 2 ^ 64 = q.sa_mask.bits := by
    rw [Nat.mod_eq_of_lt hq, Nat.mod_eq_of_lt hq]
  show qnx_sigaction.mk q.sa_handler q.sa_flags
      ⟨q.sa_mask.bits % 2 ^ 64 % 2 ^ 64⟩ = q
  rw [hm]

/-- Witness for C8 at a concrete input. -/
theorem qnx_sigaction_roundtrip_witness :
    (qnx_sigaction_to_linux ⟨1, 2, ⟨3⟩⟩ ⟨4, 5, ⟨6, 7⟩, 8⟩).sa_mask.low
        = (⟨1, 2, ⟨3⟩⟩ : qnx_sigaction).sa_mask.bits ∧
    (qnx_sigaction_to_linux ⟨1, 2, ⟨3⟩⟩ ⟨4, 5, ⟨6, 7⟩, 8⟩).sa_mask.rest
        = (⟨4, 5, ⟨6, 7⟩, 8⟩ : linux_sigaction).sa_mask.rest ∧
    (qnx_sigaction_to_linux ⟨1, 2, ⟨3⟩⟩ ⟨4, 5, ⟨6, 7⟩, 8⟩).sa_restorer
        = (⟨4, 5, ⟨6, 7⟩, 8⟩ : linux_sigaction).sa_restorer ∧
    linux_sigaction_to_qnx
        (qnx_sigaction_to_linux ⟨1, 2, ⟨3⟩⟩ ⟨4, 5, ⟨6, 7⟩, 8⟩)
      = ⟨1, 2, ⟨3⟩⟩ :=
  qnx_sigaction_roundtrip ⟨1, 2, ⟨3⟩⟩ ⟨4, 5, ⟨6, 7⟩, 8⟩ (by decide)

end QSignal

namespace QDir

/-- Claim C9: `_qnx_readdir`'s in-place transcoding snapshots the host
record before overwriting the shared buffer, so the foreign record read
back from the transcoded buffer has exactly the host record's inode,
offset and record-length, its name-length field is the length of the
host record's name, and its name is the host record's name — no host
field is ever read after a foreign field overwrote it at the same
offset. -/
theorem qnx_readdir_preserves_host_fields (b : Buffer) (fuel : Nat)
    (hwf : Buffer.wf b) (hfuel : fuel < 65536) :
    readLE (transcodeDirent b fuel) 0 8 = readLE b 0 8 ∧
    readLE (transcodeDirent b fuel) 8 8 = readLE b 8 8 ∧
    readLE (transcodeDirent b fuel) 16 2 = readLE b 16 2 ∧
    readLE (transcodeDirent b fuel) 18 2 = (readCStr b 19 fuel).length ∧
    readCStr (transcodeDirent b fuel) 20 fuel = readCStr b 19 fuel := by
  have hmem := readCStr_mem fuel b 19 hwf
  have hlen : (readCStr b 19 fuel).length ≤ fuel := readCStr_length_le fuel b 19
  have htd : transcodeDirent b fuel =
      writeCStr
        (writeLE
          (writeLE (writeLE (writeLE b 0 (readLE b 0 8) 8) 8 (readLE b 8 8) 8)
            16 (readLE b 16 2) 2)
          18 (readCStr b 19 fuel).length 2)
        20 (readCStr b 19 fuel) := rfl
  rw [htd]
  set name := readCStr b 19 fuel with hname
  set b1 := writeLE b 0 (readLE b 0 8) 8 with hb1
  set b2 := writeLE b1 8 (readLE b 8 8) 8 with hb2
  set b3 := writeLE b2 16 (readLE b 16 2) 2 with hb3
  set b4 := writeLE b3 18 name.length 2 with hb4
  set b5 := writeCStr b4 20 name with hb5
  refine ⟨?_, ?_, ?_, ?_, ?_⟩
  · have h1 : readLE b5 0 8 = readLE b1 0 8 := by
      apply readLE_congr
      intro j hj0 hj8
      rw [hb5, writeCStr_outside name b4 20 j (Or.inl (by omega)),
        hb4, writeLE_outside 2 b3 18 name.length j (Or.inl (by omega)),
        hb3, writeLE_outside 2 b2 16 (readLE b 16 2) j (Or.inl (by omega)),
        hb2, writeLE_outside 8 b1 8 (readLE b 8 8) j (Or.inl (by omega))]
    rw [h1, hb1, readLE_writeLE]
    exact Nat.mod_eq_of_lt (readLE_lt 8 b 0 (fun j _ _ => hwf j))
  · have h1 : readLE b5 8 8 = readLE b2 8 8 := by
      apply readLE_congr
      intro j hj0 hj8
      rw [hb5, writeCStr_outside name b4 20 j (Or.inl (by omega)),
        hb4, writeLE_outside 2 b3 18 name.length j (Or.inl (by omega)),
        hb3, writeLE_outside 2 b2 16 (readLE b 16 2) j (Or.inl (by omega))]
    rw [h1, hb2, readLE_writeLE]
    exact Nat.mod_eq_of_lt (readLE_lt 8 b 8 (fun j _ _ => hwf j))
  · have h1 : readLE b5 16 2 = readLE b3 16 2 := by
      apply readLE_congr
      intro j hj0 hj2
      rw [hb5, writeCStr_outside name b4 20 j (Or.inl (by omega)),
        hb4, writeLE_outside 2 b3 18 name.length j (Or.inl (by omega))]
    rw [h1, hb3, readLE_writeLE]
    exact Nat.mod_eq_of_lt (readLE_lt 2 b 16 (fun j _ _ => hwf j))
  · have h1 : readLE b5 18 2 = readLE b4 18 2 := by
      apply readLE_congr
      intro j hj0 hj2
      rw [hb5, writeCStr_outside name b4 20 j (Or.inl (by omega))]
    have h2 : name.length < 256 ^ 2 := by
      have : (256 : Nat) ^ 2 = 65536 := by norm_num
      omega
    rw [h1, hb4, readLE_writeLE]
    exact Nat.mod_eq_of_lt h2
  · rw [hb5, readCStr_writeCStr name b4 20 fuel hmem hlen]

/-- Witness for C9 at a concrete host directory entry (name "ab"). -/
theorem qnx_readdir_preserves_host_fields_witness :
    readLE (transcodeDirent bufEx 30) 0 8 = readLE bufEx 0 8 ∧
    readLE (transcodeDirent bufEx 30) 8 8 = readLE bufEx 8 8 ∧
    readLE (transcodeDirent bufEx 30) 16 2 = readLE bufEx 16 2 ∧
    readLE (transcodeDirent bufEx 30) 18 2 = (readCStr bufEx 19 30).length ∧
    readCStr (transcodeDirent bufEx 30) 20 30 = readCStr bufEx 19 30 :=
  qnx_readdir_preserves_host_fields bufEx 30 bufEx_wf (by norm_num)

end QDir
